import Mathlib

/-!
Verification of the ksred/llm Go library against its systems specification.

The development shallowly embeds the parts of the source the claims touch:

* an exact model of IEEE-754 binary64 arithmetic (values as canonical dyadic
  rationals over `Int`), used by the cost tracker (`pkg/cost/cost.go`);
* the cost tracker `CostTracker` (`TrackUsage`, `GetCost`, `SetBudget`,
  `GetProviderRates`);
* the connection pool (`pkg/resource`, `ConnectionPool.Get/Put/cleanup/
  Shutdown`) as a state machine over abstract connection ids and integer
  time ticks;
* the retrying executor (`RetryableClient.Do`) over an abstract per-attempt
  backend outcome function;
* both streaming decode loops (`anthropic.Provider.streamRequest`, the
  newline-delimited JSON framing, and `openai.Provider.streamRequest`, the
  SSE framing) over a list of input lines, with `encoding/json` abstracted
  as a parameter;
* the unified client dispatch (`client.Client.{Complete, StreamComplete,
  Chat, StreamChat}` and `validateRequest`).
-/

set_option maxRecDepth 40000

/- ## Exact binary64 arithmetic

`pkg/cost/cost.go` does all cost arithmetic in Go `float64`. To reason about
it exactly we model binary64 values as the dyadic rationals they denote and
implement round-to-nearest, ties-to-even over `Int`, which the kernel can
evaluate. -/

/-- Two to the `n`-th power, as an integer. -/
def intPow2 (n : Nat) : Int := ((2 ^ n : Nat) : Int)

/-- Fuel-bounded base-2 logarithm on naturals (structural recursion, so the
kernel can evaluate it). Equals the floor of log2 whenever the fuel bounds
the recursion depth. -/
def natLog2Fuel : Nat → Nat → Nat
  | 0, _ => 0
  | fuel + 1, n => if 2 ≤ n then natLog2Fuel fuel (n / 2) + 1 else 0

/-- Floor of log2 of `n` for `n ≥ 1`; 4096 bits of fuel covers every number
appearing in this development. -/
def natLog2 (n : Nat) : Nat := natLog2Fuel 4096 n

/-- An IEEE-754 binary64 value, represented exactly as `mant * 2 ^ exp` with
`mant` odd (or `mant = 0` and `exp = 0`), so that structural equality is
value equality. Overflow, subnormals, infinities and NaN are far outside the
magnitudes this program computes with and are not modelled. -/
structure F64 where
  mant : Int
  exp : Int
deriving DecidableEq

namespace F64

/-- Strip factors of two from the mantissa, moving them into the exponent. -/
def oddify : Nat → Int → Int → Int × Int
  | 0, m, e => (m, e)
  | fuel + 1, m, e => if m % 2 = 0 then oddify fuel (m / 2) (e + 1) else (m, e)

/-- Canonical constructor for the value `m * 2 ^ e`. -/
def make (m e : Int) : F64 :=
  if m = 0 then ⟨0, 0⟩
  else
    let p := oddify 4096 m e
    ⟨p.1, p.2⟩

/-- Test whether `num / den ≥ 2 ^ e` for positive `num`, `den`. -/
def fracLe2pow (num den : Int) (e : Int) : Bool :=
  if 0 ≤ e then decide (den * intPow2 e.toNat ≤ num)
  else decide (den ≤ num * intPow2 (-e).toNat)

/-- Floor of log2 of `num / den` for positive `num`, `den`. -/
def fracIlog2 (num den : Int) : Int :=
  let g : Int := (natLog2 num.toNat : Int) - (natLog2 den.toNat : Int)
  if ¬ fracLe2pow num den g then g - 1
  else if ¬ fracLe2pow num den (g + 1) then g
  else g + 1

/-- Round the rational `num / den` (with `den > 0`) to the nearest binary64
value, ties to even. -/
def roundFrac (num den : Int) : F64 :=
  if num = 0 then ⟨0, 0⟩
  else
    let s : Int := if num < 0 then -1 else 1
    let a : Int := if num < 0 then -num else num
    let e : Int := fracIlog2 a den
    let shift : Int := 52 - e
    let an : Int := if 0 ≤ shift then a * intPow2 shift.toNat else a
    let bn : Int := if 0 ≤ shift then den else den * intPow2 (-shift).toNat
    let f : Int := Int.fdiv an bn
    let r2 : Int := 2 * (an - f * bn)
    let m : Int :=
      if r2 < bn then f
      else if bn < r2 then f + 1
      else if f % 2 = 0 then f else f + 1
    make (s * m) (e - 52)

/-- The binary64 value denoted by the decimal literal `num / den` in the Go
source (for example the rate constant 0.03 is `ofLit 3 100`). -/
def ofLit (num den : Int) : F64 := roundFrac num den

/-- Go conversion `float64(n)` of an integer. -/
def ofInt (n : Int) : F64 := roundFrac n 1

/-- The exact value of `x` as an integer fraction with positive denominator. -/
def toFrac (x : F64) : Int × Int :=
  if 0 ≤ x.exp then (x.mant * intPow2 x.exp.toNat, 1)
  else (x.mant, intPow2 (-x.exp).toNat)

/-- Binary64 addition (exact sum, then round to nearest, ties to even),
matching Go float64 addition on the represented values. -/
def add (x y : F64) : F64 :=
  let k : Int := min x.exp y.exp
  let a : Int := x.mant * intPow2 (x.exp - k).toNat + y.mant * intPow2 (y.exp - k).toNat
  if 0 ≤ k then roundFrac (a * intPow2 k.toNat) 1 else roundFrac a (intPow2 (-k).toNat)

/-- Binary64 multiplication. -/
def mul (x y : F64) : F64 :=
  let m : Int := x.mant * y.mant
  let e : Int := x.exp + y.exp
  if 0 ≤ e then roundFrac (m * intPow2 e.toNat) 1 else roundFrac m (intPow2 (-e).toNat)

/-- Binary64 division (every divisor in this development is nonzero). -/
def div (x y : F64) : F64 :=
  let xf := toFrac x
  let yf := toFrac y
  let num := xf.1 * yf.2
  let den := xf.2 * yf.1
  if den < 0 then roundFrac (-num) (-den) else roundFrac num den

/-- Strict order on binary64 values, matching Go float64 comparison. -/
def lt (x y : F64) : Bool :=
  let k : Int := min x.exp y.exp
  decide (x.mant * intPow2 (x.exp - k).toNat < y.mant * intPow2 (y.exp - k).toNat)

/-- The float64 zero value. -/
def zero : F64 := ⟨0, 0⟩

end F64

/- ## Association lists

Go maps touched by the claims are embedded as association lists with unique
keys. -/

/-- Lookup in an association list (Go map indexing with an ok-check). -/
def assocFind {α β : Type} [DecidableEq α] (k : α) : List (α × β) → Option β
  | [] => none
  | e :: rest => if e.1 = k then some e.2 else assocFind k rest

/-- Insert or overwrite a key (Go map assignment). -/
def assocSet {α β : Type} [DecidableEq α] (k : α) (v : β) : List (α × β) → List (α × β)
  | [] => [(k, v)]
  | e :: rest => if e.1 = k then (k, v) :: rest else e :: assocSet k v rest

/-- Remove a key (Go `delete`). -/
def assocErase {α β : Type} [DecidableEq α] (k : α) : List (α × β) → List (α × β)
  | [] => []
  | e :: rest => if e.1 = k then assocErase k rest else e :: assocErase k rest

/-- Decidable equality for `Except`, used to evaluate tracker results. -/
instance {ε α : Type} [DecidableEq ε] [DecidableEq α] : DecidableEq (Except ε α) := fun a b =>
  match a, b with
  | .ok x, .ok y =>
    if h : x = y then .isTrue (by rw [h]) else .isFalse (fun hh => by cases hh; exact h rfl)
  | .error x, .error y =>
    if h : x = y then .isTrue (by rw [h]) else .isFalse (fun hh => by cases hh; exact h rfl)
  | .ok _, .error _ => .isFalse (fun hh => by cases hh)
  | .error _, .ok _ => .isFalse (fun hh => by cases hh)

/- ## Shared value types (pkg/types) -/

/-- Token usage for one request/response pair (`types.Usage`). -/
structure Usage where
  promptTokens : Int
  completionTokens : Int
  totalTokens : Int
deriving DecidableEq

/- ## Cost tracker (pkg/cost/cost.go) -/

/-- Cost per 1K tokens for a model (`cost.TokenRates`). -/
structure TokenRates where
  promptTokenRate : F64
  completionTokenRate : F64
deriving DecidableEq

/-- Cumulative usage statistics for a model (`cost.UsageStats`). The wall
clock fields `AverageLatency` and `LastRequestTime` are never read by the
claims and are omitted. -/
structure UsageStats where
  totalTokens : Int
  totalCost : F64
  requestCount : Int
deriving DecidableEq

/-- Empty statistics, the Go zero value `&UsageStats{}`. -/
def UsageStats.empty : UsageStats := ⟨0, F64.zero, 0⟩

/-- The static rate table `cost.GetProviderRates` (values are the binary64
numbers den by the Go literals); indexing a missing provider or model
yields the zero value, as Go map indexing does. -/
def getProviderRates (provider model : String) : TokenRates :=
  if provider = "openai" then
    if model = "gpt-4" then ⟨F64.ofLit 3 100, F64.ofLit 6 100⟩
    else if model = "gpt-3.5-turbo" then ⟨F64.ofLit 2 1000, F64.ofLit 2 1000⟩
    else ⟨F64.zero, F64.zero⟩
  else if provider = "anthropic" then
    if model = "claude-2.1" then ⟨F64.ofLit 8 1000, F64.ofLit 24 1000⟩
    else if model = "claude-2" then ⟨F64.ofLit 8 1000, F64.ofLit 24 1000⟩
    else if model = "claude-instant" then ⟨F64.ofLit 8 10000, F64.ofLit 24 10000⟩
    else ⟨F64.zero, F64.zero⟩
  else ⟨F64.zero, F64.zero⟩

/-- The cost computed inside `CostTracker.TrackUsage`:
`float64(PromptTokens) * PromptTokenRate / 1000 +
 float64(CompletionTokens) * CompletionTokenRate / 1000`,
with every operation rounded as binary64, exactly as Go evaluates it. -/
def computeCost (provider model : String) (u : Usage) : F64 :=
  let rates := getProviderRates provider model
  F64.add
    (F64.div (F64.mul (F64.ofInt u.promptTokens) rates.promptTokenRate) (F64.ofInt 1000))
    (F64.div (F64.mul (F64.ofInt u.completionTokens) rates.completionTokenRate) (F64.ofInt 1000))

/-- State of `cost.CostTracker`: the nested Go maps provider -> model -> v
are flattened to association lists keyed by the (provider, model) pair.
(`TrackUsage` never leaves an empty inner map behind, so a provider key
exists exactly when some (provider, model) entry exists.) -/
structure CostTracker where
  usage : List ((String × String) × UsageStats)
  budgets : List ((String × String) × F64)
deriving DecidableEq

/-- Fresh tracker (`cost.NewCostTracker`). -/
def CostTracker.new : CostTracker := ⟨[], []⟩

/-- Embedding of `CostTracker.TrackUsage`: initialise the entry if missing,
compute the cost, reject when a budget is set and `currentCost + cost >
budget` (leaving the maps as already initialised), otherwise accumulate.
Returns the new state and the error, if any, as `some` message. -/
def CostTracker.trackUsage (c : CostTracker) (provider model : String) (u : Usage) :
    CostTracker × Option String :=
  let key := (provider, model)
  let usage1 :=
    if (assocFind key c.usage).isSome then c.usage
    else assocSet key UsageStats.empty c.usage
  let cost := computeCost provider model u
  let stats := (assocFind key usage1).getD UsageStats.empty
  let updated : UsageStats :=
    ⟨stats.totalTokens + u.totalTokens, F64.add stats.totalCost cost, stats.requestCount + 1⟩
  match assocFind key c.budgets with
  | some budget =>
    if F64.lt budget (F64.add stats.totalCost cost) then
      ({ c with usage := usage1 }, some "budget exceeded")
    else
      ({ c with usage := assocSet key updated usage1 }, none)
  | none =>
      ({ c with usage := assocSet key updated usage1 }, none)

/-- Embedding of `CostTracker.GetCost`: error when the provider has no
entry, error when the model has no entry, otherwise the accumulated cost. -/
def CostTracker.getCost (c : CostTracker) (provider model : String) : Except String F64 :=
  if c.usage.all (fun e => !(e.1.1 == provider)) then
    .error "no usage tracked for provider"
  else
    match assocFind (provider, model) c.usage with
    | none => .error "no usage tracked for model"
    | some stats => .ok stats.totalCost

/-- Embedding of `CostTracker.SetBudget` (always succeeds). -/
def CostTracker.setBudget (c : CostTracker) (provider model : String) (b : F64) : CostTracker :=
  { c with budgets := assocSet (provider, model) b c.budgets }

/- ## Connection pool (pkg/resource, ConnectionPool)

Connections (Go `*http.Client` handles) are abstract ids; wall time is an
abstract tick counter supplied to each operation. The `active` map carries
the checkout timestamp exactly as the Go map `map[*http.Client]time.Time`
does. -/

/-- State of `resource.ConnectionPool`. -/
structure PoolState where
  maxSize : Nat
  idleTimeout : Nat
  idle : List Nat
  active : List (Nat × Nat)
  nextConn : Nat
  shutdown : Bool
deriving DecidableEq

/-- Fresh pool, as built by `NewConnectionPool`. -/
def PoolState.init (maxSize idleTimeout : Nat) : PoolState :=
  ⟨maxSize, idleTimeout, [], [], 0, false⟩

/-- Outcome of one body iteration of `ConnectionPool.Get`'s polling loop. -/
inductive GetStepOut where
  | got (c : Nat)
  | shutdownErr
  | exhausted
deriving DecidableEq

/-- One iteration of the `for` loop in `ConnectionPool.Get`: fail if shut
down; reuse the most recently returned idle connection (`idle[len-1]`),
stamping it with the current time; else create a fresh connection while
`len(active) < MaxSize`; else report exhaustion (the Go code then sleeps
and retries). -/
def poolGetStep (p : PoolState) (now : Nat) : GetStepOut × PoolState :=
  if p.shutdown then (.shutdownErr, p)
  else
    match p.idle.getLast? with
    | some c =>
      (.got c, { p with idle := p.idle.dropLast, active := assocSet c now p.active })
    | none =>
      if p.active.length < p.maxSize then
        (.got p.nextConn,
          { p with active := assocSet p.nextConn now p.active, nextConn := p.nextConn + 1 })
      else (.exhausted, p)

/-- Embedding of `ConnectionPool.Put`: a release after shutdown is silently
discarded; otherwise the connection moves from `active` to the end of
`idle`. -/
def poolPut (p : PoolState) (c : Nat) : PoolState :=
  if p.shutdown then p
  else { p with active := assocErase c p.active, idle := p.idle ++ [c] }

/-- One sweep of the background `cleanup` goroutine: keep an idle connection
only if it still has a timestamp in the `active` map and that timestamp is
within `idleTimeout` of now. (This mirrors the source exactly: the lookup is
performed against `p.active` even though `Put` has already deleted released
connections from it.) -/
def poolCleanupSweep (p : PoolState) (now : Nat) : PoolState :=
  if p.shutdown then p
  else
    { p with idle := p.idle.filter (fun c =>
        match assocFind c p.active with
        | some lastUsed => decide (now - lastUsed < p.idleTimeout)
        | none => false) }

/-- Embedding of `ConnectionPool.Shutdown`: marks the pool shut down and
drops both collections. -/
def poolShutdown (p : PoolState) : PoolState :=
  { p with shutdown := true, idle := [], active := [] }

/-- Errors `ConnectionPool.Get` can return. -/
inductive GetErr where
  | cancelled
  | poolIsShutdown
deriving DecidableEq

/-- External events that can happen while a `Get` caller is inside the
polling wait (one per 100 ms poll interval): another caller releases a
connection, the pool is shut down, the caller's context fires, or nothing. -/
inductive PoolEvt where
  | put (c : Nat)
  | doShutdown
  | cancelCtx
  | tick
deriving DecidableEq

/-- Execution of `ConnectionPool.Get` against a schedule of external events:
each loop iteration first runs the locked body (`poolGetStep`); on
exhaustion the caller waits one poll interval, during which the next
scheduled event happens (cancellation is observed in the `select`). `none`
means the schedule was exhausted with the caller still blocked. -/
def poolGetRun (now : Nat) : List PoolEvt → PoolState → Option (Except GetErr Nat × PoolState)
  | [], p =>
    match poolGetStep p now with
    | (.got c, p') => some (.ok c, p')
    | (.shutdownErr, p') => some (.error .poolIsShutdown, p')
    | (.exhausted, _) => none
  | evt :: rest, p =>
    match poolGetStep p now with
    | (.got c, p') => some (.ok c, p')
    | (.shutdownErr, p') => some (.error .poolIsShutdown, p')
    | (.exhausted, p') =>
      match evt with
      | .cancelCtx => some (.error .cancelled, p')
      | .put c => poolGetRun now rest (poolPut p' c)
      | .doShutdown => poolGetRun now rest (poolShutdown p')
      | .tick => poolGetRun now rest p'

/-- Pool states reachable from a fresh pool under well-formed use: loop
iterations of `Get` at any time, releases of currently active connections,
background sweeps, and shutdown. -/
inductive PoolReachable (maxSize idleTimeout : Nat) : PoolState → Prop where
  | init : PoolReachable maxSize idleTimeout (PoolState.init maxSize idleTimeout)
  | getStep (now : Nat) {p : PoolState} :
      PoolReachable maxSize idleTimeout p →
      PoolReachable maxSize idleTimeout (poolGetStep p now).2
  | put (c : Nat) {p : PoolState} :
      PoolReachable maxSize idleTimeout p →
      (assocFind c p.active).isSome = true →
      PoolReachable maxSize idleTimeout (poolPut p c)
  | sweep (now : Nat) {p : PoolState} :
      PoolReachable maxSize idleTimeout p →
      PoolReachable maxSize idleTimeout (poolCleanupSweep p now)
  | shutdownStep {p : PoolState} :
      PoolReachable maxSize idleTimeout p →
      PoolReachable maxSize idleTimeout (poolShutdown p)

/- ## Retrying executor (pkg/resource, RetryableClient.Do)

The transport is abstracted as a function from the attempt index to that
attempt's outcome. Sleep durations and the backoff interval update do not
influence the returned value and are not modelled. -/

/-- Outcome of one `c.client.Do(req)` call: a transport error (`err != nil`,
no response) or a response with a status code. -/
inductive AttemptOut where
  | transportErr
  | resp (status : Nat)
deriving DecidableEq

/-- Result of `RetryableClient.Do`, with the number of attempts performed:
a returned response (`err == nil`, any status below 500), or one of the
error exits after the loop. -/
inductive DoResult where
  | success (status : Nat) (attempts : Nat)
  | serverErr (status : Nat) (attempts : Nat)
  | transportFail (attempts : Nat)
  | maxRetriesExceeded (attempts : Nat)
deriving DecidableEq

/-- The attempt loop of `RetryableClient.Do`. `attempt` counts completed
calls, `last` is the outcome of the most recent call (the Go `resp`/`err`
variables), and the fuel starts at `maxRetries + 1`. After the loop the Go
code returns a server error if the last response had status ≥ 500, the
generic exhaustion error if `err == nil`, and the transport error itself
otherwise. -/
def doLoop (backend : Nat → AttemptOut) (attempt : Nat) (last : Option AttemptOut) :
    Nat → DoResult
  | 0 =>
    match last with
    | some (.resp s) => if 500 ≤ s then .serverErr s attempt else .maxRetriesExceeded attempt
    | some .transportErr => .transportFail attempt
    | none => .maxRetriesExceeded attempt
  | fuel + 1 =>
    match backend attempt with
    | .resp s =>
      if s < 500 then .success s (attempt + 1)
      else doLoop backend (attempt + 1) (some (.resp s)) fuel
    | .transportErr => doLoop backend (attempt + 1) (some .transportErr) fuel

/-- Embedding of `RetryableClient.Do`: attempts `0 .. maxRetries` inclusive. -/
def retryDo (maxRetries : Nat) (backend : Nat → AttemptOut) : DoResult :=
  doLoop backend 0 none (maxRetries + 1)

/-- A backend that fails with `failStatus` on the first `k` attempts and then
answers `okStatus`. -/
def backendAfter (k failStatus okStatus : Nat) : Nat → AttemptOut :=
  fun i => if i < k then .resp failStatus else .resp okStatus

/- ## Streaming decode, framing A (anthropic.Provider.streamRequest)

The decode goroutine reads newline-delimited JSON lines. The input is the
list of complete lines delivered before EOF (each as its character list,
including the newline terminator `ReadBytes` leaves in place);
`json.Unmarshal` is abstracted as a `parse` parameter returning `none`
exactly on lines it cannot parse. The caller's context is modelled as never
cancelled and the underlying read never fails, which is the regime all the
stream claims quantify over. -/

/-- Whitespace recognizer used by Go `strings.TrimSpace` (the ASCII cases,
which cover every wire line in this development). -/
def isSpaceChar (c : Char) : Bool :=
  c = ' ' || c = '\t' || c = '\n' || c = '\r' || c = '\x0b' || c = '\x0c'

/-- Go `strings.TrimSpace` over a character list. -/
def trimSpaceChars (s : List Char) : List Char :=
  ((s.dropWhile isSpaceChar).reverse.dropWhile isSpaceChar).reverse

/-- Whether `s` starts with the marker `pat` (Go `strings.HasPrefix`). -/
def startsWithChars : List Char → List Char → Bool
  | _, [] => true
  | [], _ :: _ => false
  | c :: s, p :: ps => c = p && startsWithChars s ps

/-- Wire shape `anthropicStreamResponse` (fields `type`, `content`, `role`). -/
structure AnthStreamResponse where
  type : String
  content : String
  role : String
deriving DecidableEq

/-- An item sent on the anthropic output channel: either a normalized
content fragment or a response whose `Error` field is set. -/
inductive AnthItem where
  | fragment (content : String)
  | decodeError
  | streamError (msg : String)
deriving DecidableEq

/-- The loop body of the framing-A decoder: empty reads are skipped; a line
that fails to parse emits a decode-error item and continues; a parsed event
of type "error" emits a stream-error item and continues; every other parsed
event is forwarded as a fragment. End of input closes the channel (end of
the result list). -/
def decodeAnthropicStream (parse : List Char → Option AnthStreamResponse) :
    List (List Char) → List AnthItem
  | [] => []
  | line :: rest =>
    if line.length = 0 then decodeAnthropicStream parse rest
    else
      match parse line with
      | none => .decodeError :: decodeAnthropicStream parse rest
      | some r =>
        if r.type = "error" then .streamError r.content :: decodeAnthropicStream parse rest
        else .fragment r.content :: decodeAnthropicStream parse rest

/- ## Streaming decode, framing B (openai.Provider.streamRequest) -/

/-- One choice of the wire shape `openAIStreamResponse` (delta role/content
and finish reason). -/
structure OpenAIStreamChoice where
  role : String
  content : String
  finishReason : String
deriving DecidableEq

/-- Wire shape `openAIStreamResponse` (the fields the decoder reads). -/
structure OpenAIStreamResponse where
  id : String
  model : String
  choices : List OpenAIStreamChoice
deriving DecidableEq

/-- The content carried by `openAIStreamResponse.toResponse()`: the first
choice's delta content, or empty when there are no choices. -/
def OpenAIStreamResponse.deltaContent (r : OpenAIStreamResponse) : String :=
  match r.choices with
  | [] => ""
  | ch :: _ => ch.content

/-- An item sent on the openai output channel. -/
inductive OpenAIItem where
  | response (content : String)
  | decodeError
deriving DecidableEq

/-- The loop body of the framing-B decoder: each line is trimmed; blank
lines and the literal `data: [DONE]` line are skipped; lines without the
`data: ` marker are skipped; the payload after the marker is parsed, a
failure emitting a decode-error item and continuing; a parsed response is
forwarded. End of input closes the channel. -/
def decodeOpenAIStream (parse : List Char → Option OpenAIStreamResponse) :
    List (List Char) → List OpenAIItem
  | [] => []
  | line :: rest =>
    let l := trimSpaceChars line
    if l = [] ∨ l = ("data: [DONE]").data then decodeOpenAIStream parse rest
    else if startsWithChars l ("data: ").data = false then decodeOpenAIStream parse rest
    else
      match parse (l.drop 6) with
      | none => .decodeError :: decodeOpenAIStream parse rest
      | some r => .response r.deltaContent :: decodeOpenAIStream parse rest

/- ## Unified client dispatch (client/client.go, shown in overview.md) -/

/-- Error state of a Go context: `ctx.Err()` is `Canceled` after `cancel()`
or `DeadlineExceeded` after a timeout. -/
inductive CtxErr where
  | canceled
  | deadlineExceeded
deriving DecidableEq

/-- Liveness of a non-nil Go context: live, or done with its error. -/
inductive CtxState where
  | live
  | done (e : CtxErr)
deriving DecidableEq

/-- Errors produced by `Client.validateRequest`. -/
inductive ClientErr where
  | ctxRequired
  | ctxDone (e : CtxErr)
deriving DecidableEq

/-- Embedding of `Client.validateRequest`: a nil context is rejected; a done
context returns `ctx.Err()`; otherwise the `select` falls through to its
default and validation succeeds. -/
def validateRequest : Option CtxState → Option ClientErr
  | none => some .ctxRequired
  | some .live => none
  | some (.done e) => some (.ctxDone e)

/-- Message value (`types.Message`; caller-side metadata omitted). -/
structure Message where
  role : String
  content : String
deriving DecidableEq

/-- The request of `Client.Complete` (`types.CompletionRequest`; only the
fields the dispatch path reads). -/
structure CompletionRequest where
  prompt : String
  maxTokens : Int
deriving DecidableEq

/-- The request of `Client.Chat` (`types.ChatRequest`). -/
structure ChatRequest where
  messages : List Message
  maxTokens : Int
deriving DecidableEq

/-- Embedding of `Client.Complete`: validate the context, then call the
provider. The second component counts provider (network) invocations. -/
def clientComplete {α : Type} (ctx : Option CtxState)
    (provider : CompletionRequest → α) (req : CompletionRequest) :
    Except ClientErr α × Nat :=
  match validateRequest ctx with
  | some e => (.error e, 0)
  | none => (.ok (provider req), 1)

/-- Embedding of `Client.StreamComplete` (identical dispatch shape). -/
def clientStreamComplete {α : Type} (ctx : Option CtxState)
    (provider : CompletionRequest → α) (req : CompletionRequest) :
    Except ClientErr α × Nat :=
  match validateRequest ctx with
  | some e => (.error e, 0)
  | none => (.ok (provider req), 1)

/-- Embedding of `Client.Chat`. -/
def clientChat {α : Type} (ctx : Option CtxState)
    (provider : ChatRequest → α) (req : ChatRequest) :
    Except ClientErr α × Nat :=
  match validateRequest ctx with
  | some e => (.error e, 0)
  | none => (.ok (provider req), 1)

/-- Embedding of `Client.StreamChat`. -/
def clientStreamChat {α : Type} (ctx : Option CtxState)
    (provider : ChatRequest → α) (req : ChatRequest) :
    Except ClientErr α × Nat :=
  match validateRequest ctx with
  | some e => (.error e, 0)
  | none => (.ok (provider req), 1)

/- ## Helper lemmas -/

/-- Find after setting the same key. -/
theorem assocFind_assocSet_self {α β : Type} [DecidableEq α] (k : α) (v : β) :
    ∀ l : List (α × β), assocFind k (assocSet k v l) = some v := by
  intro l
  induction l with
  | nil => simp [assocSet, assocFind]
  | cons e rest ih =>
    by_cases h : e.1 = k
    · simp [assocSet, assocFind, h]
    · simp [assocSet, assocFind, h, ih]

/-- The length after setting a key grows by at most one. -/
theorem assocSet_length_le {α β : Type} [DecidableEq α] (k : α) (v : β) :
    ∀ l : List (α × β), (assocSet k v l).length ≤ l.length + 1 := by
  intro l
  induction l with
  | nil => simp [assocSet]
  | cons e rest ih =>
    by_cases h : e.1 = k
    · simp [assocSet, h]
    · simp only [assocSet, if_neg h, List.length_cons]
      omega

/-- Erasing never grows the list. -/
theorem assocErase_length_le {α β : Type} [DecidableEq α] (k : α) :
    ∀ l : List (α × β), (assocErase k l).length ≤ l.length := by
  intro l
  induction l with
  | nil => simp [assocErase]
  | cons e rest ih =>
    by_cases he : e.1 = k
    · simp only [assocErase, if_pos he, List.length_cons]
      omega
    · simp only [assocErase, if_neg he, List.length_cons]
      omega

/-- Erasing a present key strictly shrinks the list. -/
theorem assocErase_length_lt {α β : Type} [DecidableEq α] (k : α) :
    ∀ l : List (α × β), (assocFind k l).isSome = true → (assocErase k l).length < l.length := by
  intro l
  induction l with
  | nil => intro h; simp [assocFind] at h
  | cons e rest ih =>
    intro h
    by_cases he : e.1 = k
    · have hle := assocErase_length_le k rest
      simp only [assocErase, if_pos he, List.length_cons]
      omega
    · simp only [assocFind, if_neg he] at h
      simp only [assocErase, if_neg he, List.length_cons]
      exact Nat.succ_lt_succ (ih h)

/-- The cumulative cost currently recorded for a pair (zero when the pair
has no entry, which is also the Go zero value a fresh entry starts with). -/
def statsTotalCost (c : CostTracker) (provider model : String) : F64 :=
  ((assocFind (provider, model) c.usage).getD UsageStats.empty).totalCost

/-- Initialising a missing entry with the zero stats does not change the
stats value subsequently read. -/
theorem assocFind_init_getD (c : CostTracker) (key : String × String) :
    ((assocFind key (if (assocFind key c.usage).isSome then c.usage
        else assocSet key UsageStats.empty c.usage)).getD UsageStats.empty) =
      (assocFind key c.usage).getD UsageStats.empty := by
  cases h : assocFind key c.usage with
  | none => simp [h, assocFind_assocSet_self]
  | some v => simp [h]

/- ## Claim C10 -/

/-- C10: with a budget `b` configured for the pair, `TrackUsage` returns a
budget error exactly when the cumulative cost plus the newly computed cost
is strictly greater than `b` (float64 comparison); when the sum does not
exceed the budget — in particular when it lands exactly on it — the call is
accepted and the sum is accumulated as the new cumulative cost. -/
theorem trackUsage_budget_strict_boundary (c : CostTracker) (provider model : String)
    (u : Usage) (b : F64)
    (hb : assocFind (provider, model) c.budgets = some b) :
    ((c.trackUsage provider model u).2 ≠ none ↔
      F64.lt b (F64.add (statsTotalCost c provider model) (computeCost provider model u)) = true) ∧
    (F64.lt b (F64.add (statsTotalCost c provider model) (computeCost provider model u)) = false →
      (c.trackUsage provider model u).2 = none ∧
      statsTotalCost (c.trackUsage provider model u).1 provider model =
        F64.add (statsTotalCost c provider model) (computeCost provider model u)) := by
  have hinit := assocFind_init_getD c (provider, model)
  simp only [CostTracker.trackUsage, hb, statsTotalCost] at *
  rw [hinit]
  by_cases hlt : F64.lt b (F64.add ((assocFind (provider, model) c.usage).getD
      UsageStats.empty).totalCost (computeCost provider model u)) = true
  · simp [hlt]
  · simp only [Bool.not_eq_true] at hlt
    simp [hlt, assocFind_assocSet_self]

/-- Witness for C10: on a fresh tracker with budget 0.006 for openai/gpt-4,
usage (100, 50) computes cost exactly equal to the budget, so the call is
accepted and accumulated. -/
theorem trackUsage_budget_strict_boundary_witness :
    ((CostTracker.new.setBudget "openai" "gpt-4" (F64.ofLit 6 1000)).trackUsage
        "openai" "gpt-4" ⟨100, 50, 150⟩).2 = none ∧
    statsTotalCost ((CostTracker.new.setBudget "openai" "gpt-4" (F64.ofLit 6 1000)).trackUsage
        "openai" "gpt-4" ⟨100, 50, 150⟩).1 "openai" "gpt-4" =
      F64.add (statsTotalCost (CostTracker.new.setBudget "openai" "gpt-4" (F64.ofLit 6 1000))
          "openai" "gpt-4")
        (computeCost "openai" "gpt-4" ⟨100, 50, 150⟩) := by
  have h := trackUsage_budget_strict_boundary
    (CostTracker.new.setBudget "openai" "gpt-4" (F64.ofLit 6 1000)) "openai" "gpt-4"
    ⟨100, 50, 150⟩ (F64.ofLit 6 1000) (by decide)
  exact h.2 (by decide)

/- ## Claim C7 -/

/-- C7 (amended): a `TrackUsage` call rejected by the budget check never
changes any accumulated value — the budgets are untouched and the
cumulative cost read back for the pair is identical — and whenever the pair
already has a usage entry the entire tracker state is unchanged (so
`GetCost` returns the same result). The only mutation a rejected call can
make is creating the zero-valued stats entry for a first-ever pair. -/
theorem trackUsage_reject_preserves_state (c : CostTracker) (provider model : String) (u : Usage)
    (hrej : (c.trackUsage provider model u).2 ≠ none) :
    (c.trackUsage provider model u).1.budgets = c.budgets ∧
    statsTotalCost (c.trackUsage provider model u).1 provider model =
      statsTotalCost c provider model ∧
    ((assocFind (provider, model) c.usage).isSome = true →
      (c.trackUsage provider model u).1 = c) := by
  cases hb : assocFind (provider, model) c.budgets with
  | none =>
    exfalso
    apply hrej
    simp [CostTracker.trackUsage, hb]
  | some b =>
    by_cases hlt : F64.lt b (F64.add (statsTotalCost c provider model)
        (computeCost provider model u)) = true
    · have hinit := assocFind_init_getD c (provider, model)
      simp only [statsTotalCost] at hlt
      simp only [CostTracker.trackUsage, hb, statsTotalCost, hinit, hlt, if_true]
      refine ⟨trivial, ?_, ?_⟩
      · cases hu : assocFind (provider, model) c.usage with
        | none => simp [hu, assocFind_assocSet_self]
        | some v => simp [hu]
      · intro hsome
        cases hu : assocFind (provider, model) c.usage with
        | none => rw [hu] at hsome; simp at hsome
        | some v => simp [hu]
    · exfalso
      apply hrej
      have hinit := assocFind_init_getD c (provider, model)
      simp only [Bool.not_eq_true] at hlt
      simp only [statsTotalCost] at hlt
      simp [CostTracker.trackUsage, hb, hinit, hlt]

/-- Budget-scenario tracker: budget 1.00 set for openai/gpt-4, nothing
tracked yet. -/
def budgetTracker : CostTracker := CostTracker.new.setBudget "openai" "gpt-4" (F64.ofInt 1)

/-- Usage whose gpt-4 cost is 1.20, beyond the 1.00 budget. -/
def overUsage : Usage := ⟨20000, 10000, 30000⟩

/-- Counterexample for C7 as stated: on a fresh tracker with a budget, the
rejected call does mutate observable state — before it `GetCost` fails with
"no usage tracked", after it `GetCost` succeeds with 0, because `TrackUsage`
creates the zeroed stats entry before the budget check. -/
theorem trackUsage_reject_changes_getCost :
    ((budgetTracker.trackUsage "openai" "gpt-4" overUsage).2).isSome = true ∧
    budgetTracker.getCost "openai" "gpt-4" = .error "no usage tracked for provider" ∧
    (budgetTracker.trackUsage "openai" "gpt-4" overUsage).1.getCost "openai" "gpt-4" =
      .ok F64.zero ∧
    budgetTracker.getCost "openai" "gpt-4" ≠
      (budgetTracker.trackUsage "openai" "gpt-4" overUsage).1.getCost "openai" "gpt-4" := by
  decide

/-- Witness for the amended C7: a tracker that already tracked usage costing
0.60 rejects a further 1.20-cost usage and is left completely unchanged. -/
theorem trackUsage_reject_preserves_state_witness :
    ((budgetTracker.trackUsage "openai" "gpt-4" ⟨10000, 5000, 15000⟩).1.trackUsage
        "openai" "gpt-4" overUsage).1 =
      (budgetTracker.trackUsage "openai" "gpt-4" ⟨10000, 5000, 15000⟩).1 := by
  exact (trackUsage_reject_preserves_state
    (budgetTracker.trackUsage "openai" "gpt-4" ⟨10000, 5000, 15000⟩).1
    "openai" "gpt-4" overUsage (by decide)).2.2 (by decide)

/- ## Claim C8 -/

/-- C8: tracking usage (prompt 100, completion 50) against the gpt-4 rates
(0.03, 0.06 per 1K tokens) computes, in exact binary64 arithmetic, the cost
100*0.03/1000 + 50*0.06/1000 = 0.003 + 0.003, which equals the float64
value 0.006 exactly; `GetCost` then reports it, and a second identical
tracked usage accumulates additively onto the first. -/
theorem trackUsage_cost_formula_and_accumulation :
    computeCost "openai" "gpt-4" ⟨100, 50, 150⟩ =
      F64.add
        (F64.div (F64.mul (F64.ofInt 100) (F64.ofLit 3 100)) (F64.ofInt 1000))
        (F64.div (F64.mul (F64.ofInt 50) (F64.ofLit 6 100)) (F64.ofInt 1000)) ∧
    computeCost "openai" "gpt-4" ⟨100, 50, 150⟩ = F64.ofLit 6 1000 ∧
    F64.ofLit 6 1000 = F64.add (F64.ofLit 3 1000) (F64.ofLit 3 1000) ∧
    (CostTracker.new.trackUsage "openai" "gpt-4" ⟨100, 50, 150⟩).2 = none ∧
    (CostTracker.new.trackUsage "openai" "gpt-4" ⟨100, 50, 150⟩).1.getCost "openai" "gpt-4" =
      .ok (F64.ofLit 6 1000) ∧
    ((CostTracker.new.trackUsage "openai" "gpt-4" ⟨100, 50, 150⟩).1.trackUsage
        "openai" "gpt-4" ⟨100, 50, 150⟩).2 = none ∧
    ((CostTracker.new.trackUsage "openai" "gpt-4" ⟨100, 50, 150⟩).1.trackUsage
        "openai" "gpt-4" ⟨100, 50, 150⟩).1.getCost "openai" "gpt-4" =
      .ok (F64.add (F64.ofLit 6 1000) (F64.ofLit 6 1000)) := by
  decide

/- ## Claim C3 -/

/-- While every attempt keeps answering 500, the loop keeps retrying and,
once the fuel runs out, `Do` reports the server error with the total number
of calls made. -/
theorem doLoop_all500_exhausts (k : Nat) :
    ∀ (fuel a : Nat), a + fuel ≤ k →
      doLoop (backendAfter k 500 200) a (some (.resp 500)) fuel = .serverErr 500 (a + fuel) := by
  intro fuel
  induction fuel with
  | zero => intro a _; simp [doLoop]
  | succ f ih =>
    intro a h
    have hak : a < k := by omega
    have hb : backendAfter k 500 200 a = .resp 500 := by simp [backendAfter, hak]
    have : doLoop (backendAfter k 500 200) a (some (.resp 500)) (f + 1) =
        doLoop (backendAfter k 500 200) (a + 1) (some (.resp 500)) f := by
      simp [doLoop, hb]
    rw [this, ih (a + 1) (by omega)]
    congr 1
    omega

/-- While the 500s last, the loop walks forward to the first successful
attempt and returns it. -/
theorem doLoop_500_reaches_success (k : Nat) :
    ∀ (fuel a : Nat) (last : Option AttemptOut), a ≤ k → k < a + fuel →
      doLoop (backendAfter k 500 200) a last fuel = .success 200 (k + 1) := by
  intro fuel
  induction fuel with
  | zero => intro a last h1 h2; omega
  | succ f ih =>
    intro a last h1 h2
    by_cases hak : a < k
    · have hb : backendAfter k 500 200 a = .resp 500 := by simp [backendAfter, hak]
      have : doLoop (backendAfter k 500 200) a last (f + 1) =
          doLoop (backendAfter k 500 200) (a + 1) (some (.resp 500)) f := by
        simp [doLoop, hb]
      rw [this]
      exact ih (a + 1) _ (by omega) (by omega)
    · have ha : a = k := by omega
      have hb : backendAfter k 500 200 a = .resp 200 := by
        simp [backendAfter]
        omega
      subst ha
      simp [doLoop, hb]

/-- C3: against a backend that answers 500 on the first `k` attempts and 200
afterwards, `RetryableClient.Do` returns the successful response after
exactly `k + 1` attempts when `k ≤ MaxRetries` (no attempt happens after the
success), and performs exactly `MaxRetries + 1` attempts and returns the
server-error exhaustion result when `k > MaxRetries`. -/
theorem retryDo_500_then_success (maxRetries k : Nat) :
    (k ≤ maxRetries →
      retryDo maxRetries (backendAfter k 500 200) = .success 200 (k + 1)) ∧
    (maxRetries < k →
      retryDo maxRetries (backendAfter k 500 200) = .serverErr 500 (maxRetries + 1)) := by
  constructor
  · intro h
    exact doLoop_500_reaches_success k (maxRetries + 1) 0 none (Nat.zero_le k) (by omega)
  · intro h
    have h0 : (0 : Nat) < k := by omega
    have hb : backendAfter k 500 200 0 = .resp 500 := by simp [backendAfter, h0]
    have step : retryDo maxRetries (backendAfter k 500 200) =
        doLoop (backendAfter k 500 200) 1 (some (.resp 500)) maxRetries := by
      simp [retryDo, doLoop, hb]
    rw [step, doLoop_all500_exhausts k maxRetries 1 (by omega)]
    congr 1
    omega

/-- Witness for C3 at MaxRetries = 3: two 500s then success gives the
response after 3 attempts; five 500s exhausts after 4 attempts. -/
theorem retryDo_500_then_success_witness :
    retryDo 3 (backendAfter 2 500 200) = .success 200 3 ∧
    retryDo 3 (backendAfter 5 500 200) = .serverErr 500 4 := by
  exact ⟨(retryDo_500_then_success 3 2).1 (by omega), (retryDo_500_then_success 3 5).2 (by omega)⟩

/- ## Claim C6 -/

/-- Truth value of "the Go call `Do` returned a non-nil error". -/
def DoResult.isFailure : DoResult → Bool
  | .success _ _ => false
  | .serverErr _ _ => true
  | .transportFail _ => true
  | .maxRetriesExceeded _ => true

/-- Counterexample for C6 as stated: a backend answering 404 makes `Do`
terminate after exactly one attempt, but `Do` returns the 4xx response with
a nil error — at the `RetryableClient.Do` boundary this is not a failure
return. -/
theorem retryDo_4xx_returns_without_error :
    retryDo 3 (fun _ => .resp 404) = .success 404 1 ∧
    (retryDo 3 (fun _ => .resp 404)).isFailure = false := by
  decide

/-- C6 (amended): a first-attempt 4xx response terminates the attempt loop
immediately with attempt count 1 and is never retried; `Do` hands the 4xx
response back with a nil error, leaving failure classification to its
caller (`doRequest` turns any status ≥ 400 into a provider error). -/
theorem retryDo_4xx_never_retried (maxRetries s : Nat) (backend : Nat → AttemptOut)
    (hb : backend 0 = .resp s) (_h4 : 400 ≤ s) (h5 : s < 500) :
    retryDo maxRetries backend = .success s 1 := by
  simp [retryDo, doLoop, hb, h5]

/-- Witness for the amended C6 at a backend answering 404. -/
theorem retryDo_4xx_never_retried_witness :
    retryDo 3 (fun _ => .resp 404) = .success 404 1 :=
  retryDo_4xx_never_retried 3 404 (fun _ => .resp 404) rfl (by omega) (by omega)

/- ## Claim C1 -/

/-- Concrete model of `json.Unmarshal` into `anthropicStreamResponse` for
the wire lines used below: the well-formed content event parses, everything
else (in particular the line "not json") fails. -/
def anthParseStub : List Char → Option AnthStreamResponse := fun s =>
  if s = ("\x7b\"type\":\"content\",\"content\":\"Hi\"\x7d\n").data then
    some ⟨"content", "Hi", "assistant"⟩
  else none

/-- Counterexample for C1 as stated: a malformed line followed by a valid
content line yields the error item and then a further fragment — the
decoder does not terminate at the malformed line, so the error item is not
terminal and fragments do keep flowing after it. -/
theorem anthropic_malformed_line_not_terminal :
    decodeAnthropicStream anthParseStub
      [("not json\n").data, ("\x7b\"type\":\"content\",\"content\":\"Hi\"\x7d\n").data] =
      [.decodeError, .fragment "Hi"] ∧
    decodeAnthropicStream anthParseStub
      [("not json\n").data, ("\x7b\"type\":\"content\",\"content\":\"Hi\"\x7d\n").data] ≠
      [.decodeError] := by
  decide

/-- C1 (amended): in the framing-A decoder a non-empty line that fails to
parse emits exactly one error item — it is never silently skipped — but the
stream is not terminated: decoding continues with the remaining lines, and
the channel closes only at end of input. -/
theorem anthropic_unparseable_line_emits_error_and_continues
    (parse : List Char → Option AnthStreamResponse) (line : List Char)
    (rest : List (List Char)) (hne : line.length ≠ 0) (hp : parse line = none) :
    decodeAnthropicStream parse (line :: rest) =
      .decodeError :: decodeAnthropicStream parse rest := by
  simp [decodeAnthropicStream, hne, hp]

/-- Witness for the amended C1: the "not json" line produces the error item
in front of the decode of the remaining input. -/
theorem anthropic_unparseable_line_witness :
    decodeAnthropicStream anthParseStub
      [("not json\n").data, ("\x7b\"type\":\"content\",\"content\":\"Hi\"\x7d\n").data] =
      .decodeError :: decodeAnthropicStream anthParseStub
        [("\x7b\"type\":\"content\",\"content\":\"Hi\"\x7d\n").data] :=
  anthropic_unparseable_line_emits_error_and_continues anthParseStub _ _
    (by decide) (by decide)

/- ## Claim C4 -/

/-- Concrete model of `json.Unmarshal` into `openAIStreamResponse` for the
delta payloads used below. -/
def openaiParseStub : List Char → Option OpenAIStreamResponse := fun s =>
  if s = ("\x7b\"choices\":[\x7b\"delta\":\x7b\"content\":\"Hello\"\x7d\x7d]\x7d").data then
    some ⟨"1", "gpt-4", [⟨"assistant", "Hello", ""⟩]⟩
  else if s = ("\x7b\"choices\":[\x7b\"delta\":\x7b\"content\":\" world\"\x7d\x7d]\x7d").data then
    some ⟨"2", "gpt-4", [⟨"assistant", " world", ""⟩]⟩
  else if s = ("\x7b\"choices\":[\x7b\"delta\":\x7b\"content\":\"!\"\x7d\x7d]\x7d").data then
    some ⟨"3", "gpt-4", [⟨"assistant", "!", ""⟩]⟩
  else none

/-- Counterexample for C4 as stated: a `data:` content line arriving after
`data: [DONE]` is still decoded and emitted — the decoder does not stop at
the sentinel, it merely skips that line. -/
theorem openai_emits_after_done_sentinel :
    decodeOpenAIStream openaiParseStub
      [("data: \x7b\"choices\":[\x7b\"delta\":\x7b\"content\":\"Hello\"\x7d\x7d]\x7d\n").data,
        ("data: [DONE]\n").data,
        ("data: \x7b\"choices\":[\x7b\"delta\":\x7b\"content\":\"!\"\x7d\x7d]\x7d\n").data] =
      [.response "Hello", .response "!"] ∧
    decodeOpenAIStream openaiParseStub
      [("data: \x7b\"choices\":[\x7b\"delta\":\x7b\"content\":\"Hello\"\x7d\x7d]\x7d\n").data,
        ("data: [DONE]\n").data,
        ("data: \x7b\"choices\":[\x7b\"delta\":\x7b\"content\":\"!\"\x7d\x7d]\x7d\n").data] ≠
      [.response "Hello"] := by
  decide

/-- C4 (amended): a `data: [DONE]` line is skipped without emitting any
item, exactly like a blank keep-alive line — it does not stop the decoder,
which keeps handling whatever lines follow, the channel closing at end of
input; when `[DONE]` is the final line (the spec's example input) the
emitted sequence is exactly the two fragments and closure with no error
item. -/
theorem openai_done_line_skipped
    (parse : List Char → Option OpenAIStreamResponse) (line : List Char)
    (rest : List (List Char)) (hdone : trimSpaceChars line = ("data: [DONE]").data) :
    decodeOpenAIStream parse (line :: rest) = decodeOpenAIStream parse rest := by
  simp [decodeOpenAIStream, hdone]

/-- Witness for the amended C4, also checking the spec's example stream
end-to-end: Hello, world, then the sentinel as final line, giving exactly
the two fragments. -/
theorem openai_done_line_skipped_witness :
    decodeOpenAIStream openaiParseStub
      [("data: [DONE]\n").data,
        ("data: \x7b\"choices\":[\x7b\"delta\":\x7b\"content\":\"!\"\x7d\x7d]\x7d\n").data] =
      decodeOpenAIStream openaiParseStub
        [("data: \x7b\"choices\":[\x7b\"delta\":\x7b\"content\":\"!\"\x7d\x7d]\x7d\n").data] ∧
    decodeOpenAIStream openaiParseStub
      [("data: \x7b\"choices\":[\x7b\"delta\":\x7b\"content\":\"Hello\"\x7d\x7d]\x7d\n").data,
        ("data: \x7b\"choices\":[\x7b\"delta\":\x7b\"content\":\" world\"\x7d\x7d]\x7d\n").data,
        ("data: [DONE]\n").data] =
      [.response "Hello", .response " world"] := by
  constructor
  · exact openai_done_line_skipped openaiParseStub _ _ (by decide)
  · decide


/- ## Claim C2 -/

/-- C2 (evaluating the code at the failing input): with MaxSize 10 and
IdleTimeout 100 ticks, connection 0 is acquired at t = 0 and released at
t = 0; one background sweep runs at t = 1 — 99 ticks before the idle
timeout would expire — yet it evicts the connection (the sweep looks the
idle client up in the `active` map, from which `Put` already deleted it, so
the keep branch never fires), and the re-acquire at t = 2 constructs the
fresh connection 1 instead of handing connection 0 back. -/
theorem pool_sweep_evicts_within_idle_timeout :
    (poolGetStep (PoolState.init 10 100) 0).1 = .got 0 ∧
    (poolPut (poolGetStep (PoolState.init 10 100) 0).2 0).idle = [0] ∧
    (poolCleanupSweep (poolPut (poolGetStep (PoolState.init 10 100) 0).2 0) 1).idle = [] ∧
    (poolGetStep (poolCleanupSweep (poolPut (poolGetStep (PoolState.init 10 100) 0).2 0) 1) 2).1 =
      .got 1 ∧
    GetStepOut.got 1 ≠ GetStepOut.got 0 := by
  decide

/- ## Claim C5 -/

/-- One `Get` loop iteration preserves the bound "held plus idle does not
exceed MaxSize". -/
theorem poolGetStep_keeps_bound (p : PoolState) (now : Nat)
    (h : p.active.length + p.idle.length ≤ p.maxSize) :
    (poolGetStep p now).2.active.length + (poolGetStep p now).2.idle.length ≤
      (poolGetStep p now).2.maxSize := by
  by_cases hs : p.shutdown = true
  · simpa [poolGetStep, hs] using h
  · have hs' : p.shutdown = false := by revert hs; cases p.shutdown <;> simp
    cases hl : p.idle.getLast? with
    | some c =>
      have hlen : 1 ≤ p.idle.length := by
        cases hq : p.idle with
        | nil => rw [hq] at hl; simp at hl
        | cons a as => simp [hq]
      have hset := assocSet_length_le c now p.active
      simp only [poolGetStep, hs', Bool.false_eq_true, if_false, hl, List.length_dropLast]
      omega
    | none =>
      by_cases hcap : p.active.length < p.maxSize
      · have hset := assocSet_length_le p.nextConn now p.active
        have hnil : p.idle = [] := by
          cases hq : p.idle with
          | nil => rfl
          | cons a as => rw [hq] at hl; simp at hl
        simp [poolGetStep, hs', hl, hcap, hnil]
        omega
      · simpa [poolGetStep, hs', hl, hcap] using h

/-- Releasing a held connection preserves the bound. -/
theorem poolPut_keeps_bound (p : PoolState) (c : Nat)
    (hin : (assocFind c p.active).isSome = true)
    (h : p.active.length + p.idle.length ≤ p.maxSize) :
    (poolPut p c).active.length + (poolPut p c).idle.length ≤ (poolPut p c).maxSize := by
  by_cases hs : p.shutdown = true
  · simpa [poolPut, hs] using h
  · have hs' : p.shutdown = false := by revert hs; cases p.shutdown <;> simp
    have herase := assocErase_length_lt c p.active hin
    simp only [poolPut, hs', Bool.false_eq_true, if_false, List.length_append,
      List.length_cons, List.length_nil]
    omega

/-- A background sweep preserves the bound. -/
theorem poolCleanupSweep_keeps_bound (p : PoolState) (now : Nat)
    (h : p.active.length + p.idle.length ≤ p.maxSize) :
    (poolCleanupSweep p now).active.length + (poolCleanupSweep p now).idle.length ≤
      (poolCleanupSweep p now).maxSize := by
  by_cases hs : p.shutdown = true
  · simpa [poolCleanupSweep, hs] using h
  · have hs' : p.shutdown = false := by revert hs; cases p.shutdown <;> simp
    have hfil := List.length_filter_le (fun c =>
      match assocFind c p.active with
      | some lastUsed => decide (now - lastUsed < p.idleTimeout)
      | none => false) p.idle
    simp only [poolCleanupSweep, hs', Bool.false_eq_true, if_false]
    omega

/-- Sum bound maintained by every reachable pool state. -/
theorem pool_sum_bound {maxSize idleTimeout : Nat} {p : PoolState}
    (h : PoolReachable maxSize idleTimeout p) :
    p.active.length + p.idle.length ≤ p.maxSize := by
  induction h with
  | init => simp [PoolState.init]
  | getStep now hr ih => exact poolGetStep_keeps_bound _ now ih
  | put c hr hin ih => exact poolPut_keeps_bound _ c hin ih
  | sweep now hr ih => exact poolCleanupSweep_keeps_bound _ now ih
  | shutdownStep hr ih => simp [poolShutdown]

/-- C5: (1) whenever the pool is live and an idle connection exists or the
active count is below MaxSize, `Get` returns a connection on its first loop
iteration, without waiting; (2) once the active count equals MaxSize with no
idle connection, `Get` blocks — it produces no result until an external
event — and then returns the released connection after a `Put`, the
context's cancellation error when the context fires, and the pool-shutdown
error after `Shutdown`; (3) in every reachable pool state the number of
active connections never exceeds MaxSize. -/
theorem pool_get_blocking_semantics :
    (∀ (p : PoolState) (now : Nat), p.shutdown = false →
      (p.idle ≠ [] ∨ p.active.length < p.maxSize) →
      ∃ c p', poolGetRun now [] p = some (.ok c, p')) ∧
    (∀ (p : PoolState) (now : Nat), p.shutdown = false → p.idle = [] →
      p.active.length = p.maxSize →
      poolGetRun now [] p = none ∧
      (∀ c, ∃ p', poolGetRun now [PoolEvt.put c] p = some (.ok c, p')) ∧
      poolGetRun now [PoolEvt.cancelCtx] p = some (.error .cancelled, p) ∧
      poolGetRun now [PoolEvt.doShutdown] p = some (.error .poolIsShutdown, poolShutdown p)) ∧
    (∀ (maxSize idleTimeout : Nat) (p : PoolState),
      PoolReachable maxSize idleTimeout p → p.active.length ≤ p.maxSize) := by
  refine ⟨?_, ?_, ?_⟩
  · intro p now hs havail
    cases hl : p.idle.getLast? with
    | some c =>
      refine ⟨c, { p with idle := p.idle.dropLast, active := assocSet c now p.active }, ?_⟩
      simp [poolGetRun, poolGetStep, hs, hl]
    | none =>
      have hnil : p.idle = [] := by
        cases hq : p.idle with
        | nil => rfl
        | cons a as => rw [hq] at hl; simp at hl
      have hcap : p.active.length < p.maxSize := by
        cases havail with
        | inl hne => exact absurd hnil hne
        | inr hlt => exact hlt
      refine ⟨p.nextConn, { p with active := assocSet p.nextConn now p.active, nextConn := p.nextConn + 1 }, ?_⟩
      simp [poolGetRun, poolGetStep, hs, hl, hcap]
  · intro p now hs hnil hfull
    have hl : p.idle.getLast? = none := by simp [hnil]
    have hcap : ¬ p.active.length < p.maxSize := by omega
    have hstep : poolGetStep p now = (.exhausted, p) := by
      simp [poolGetStep, hs, hl, hcap]
    refine ⟨?_, ?_, ?_, ?_⟩
    · simp [poolGetRun, hstep]
    · intro c
      have hput : poolPut p c =
          { p with active := assocErase c p.active, idle := p.idle ++ [c] } := by
        simp [poolPut, hs]
      refine ⟨{ p with active := assocSet c now (assocErase c p.active), idle := [] }, ?_⟩
      simp only [poolGetRun, hstep]
      rw [hput]
      simp [poolGetRun, poolGetStep, hs, hnil]
    · simp [poolGetRun, hstep]
    · have hsd : poolGetStep (poolShutdown p) now = (.shutdownErr, poolShutdown p) := by
        simp [poolGetStep, poolShutdown]
      simp [poolGetRun, hstep, hsd]
  · intro maxSize idleTimeout p h
    have hsum := pool_sum_bound h
    omega

/-- Witness for C5: a live pool with one active connection out of three
grants a connection immediately; a full one-connection pool blocks with no
scheduled event and returns the cancellation error when the context fires;
a state reached by one Get step respects the bound. -/
theorem pool_get_blocking_semantics_witness :
    (∃ c p', poolGetRun 7 [] (PoolState.init 3 10) = some (.ok c, p')) ∧
    poolGetRun 7 [] (PoolState.mk 1 10 [] [(0, 0)] 1 false) = none ∧
    poolGetRun 7 [PoolEvt.cancelCtx] (PoolState.mk 1 10 [] [(0, 0)] 1 false) =
      some (.error .cancelled, PoolState.mk 1 10 [] [(0, 0)] 1 false) ∧
    (poolGetStep (PoolState.init 1 10) 0).2.active.length ≤
      (poolGetStep (PoolState.init 1 10) 0).2.maxSize := by
  have h := pool_get_blocking_semantics
  have hfull := h.2.1 (PoolState.mk 1 10 [] [(0, 0)] 1 false) 7 rfl rfl rfl
  exact ⟨h.1 (PoolState.init 3 10) 7 rfl (Or.inr (by decide)), hfull.1, hfull.2.2.1,
    h.2.2 1 10 _ (PoolReachable.getStep 0 PoolReachable.init)⟩

/- ## Claim C9 -/

/-- C9: for each of the four dispatch operations, a context that is already
done at call time makes the unified client fail fast: the result is exactly
the error `validateRequest` derives from `ctx.Err()`, and the provider
(hence the network) is invoked zero times. -/
theorem client_cancelled_ctx_fails_fast {α β : Type} (e : CtxErr)
    (provComplete provStreamComplete : CompletionRequest → α)
    (provChat provStreamChat : ChatRequest → β)
    (reqC : CompletionRequest) (reqCh : ChatRequest) :
    clientComplete (some (.done e)) provComplete reqC = (.error (.ctxDone e), 0) ∧
    clientStreamComplete (some (.done e)) provStreamComplete reqC = (.error (.ctxDone e), 0) ∧
    clientChat (some (.done e)) provChat reqCh = (.error (.ctxDone e), 0) ∧
    clientStreamChat (some (.done e)) provStreamChat reqCh = (.error (.ctxDone e), 0) := by
  exact ⟨rfl, rfl, rfl, rfl⟩
